import Mathlib

/-!
Shallow embedding of `src/ocm.py` (OpenClaw Multi-Instance Manager).

The registry, port allocator, configuration composer and lifecycle
operations (create / delete / edit / backup / restore) are translated into
executable Lean definitions.  External collaborators (systemd, ufw, the
liveness probe, `input()` answers, `os.urandom`, timestamps, the main
configuration file on disk) are supplied through an explicit `Env` record,
matching the spec's instruction to treat them as injected collaborators.

JSON documents are modelled by the inductive `JVal`; Python dicts are
association lists in insertion order, with assignment semantics
(`setA`) that replace an existing key in place and append new keys at the
end, exactly as CPython dicts behave.
-/

namespace OCM

/-- Constants from the top of `ocm.py`. -/
def BASE_PORT : Nat := 18789

def PORT_INCREMENT : Nat := 20

def MAIN_PROFILE : String := "main"

/-- A non-integral JSON number, as `json.loads` produces for numbers with
a fraction or exponent part and for the `NaN`/`Infinity` constants.  The
program stores the nearest IEEE-754 double; the embedding represents the
number by the exact decimal `m * 10 ^ e` denoted by the lexeme (with
trailing zeros of `m` folded into `e`), since the lifecycle core only
stores and structurally retrieves these values — double rounding, overflow
to infinity, and `-0.0` are outside the embedding. -/
inductive FloatRepr where
  | dec (m : Int) (e : Int)
  | nan
  | inf (neg : Bool)
deriving Repr, DecidableEq

/-- JSON value, the shape of every configuration document. -/
inductive JVal where
  | null
  | bool (b : Bool)
  | num (n : Int)
  | float (f : FloatRepr)
  | str (s : String)
  | arr (xs : List JVal)
  | obj (fields : List (String × JVal))
deriving Repr

/-- Python `d[k]` lookup on an insertion-ordered dict (first match). -/
def lookupA {α : Type} : List (String × α) → String → Option α
  | [], _ => none
  | (k', v) :: rest, k => if k' = k then some v else lookupA rest k

/-- Python `d[k] = v`: replace in place if the key exists, else append. -/
def setA {α : Type} : List (String × α) → String → α → List (String × α)
  | [], k, v => [(k, v)]
  | (k', v') :: rest, k, v =>
      if k' = k then (k, v) :: rest else (k', v') :: setA rest k v

/-- Python `del d[k]` (also used for file removal keyed by name). -/
def removeA {α : Type} (xs : List (String × α)) (k : String) : List (String × α) :=
  xs.filter (fun kv => !(kv.1 = k))

/-- `Instance` dataclass from `ocm.py`. -/
structure Instance where
  name : String
  port : Nat
  profile : String
  created_at : String
  autostart : Bool := false
  status : String := "stopped"
  model : String := ""
deriving Repr, DecidableEq

/-- State tree content: relative path inside the instance state dir ↦ bytes.
Directories appear as entries with empty content. -/
abbrev StateTree : Type := List (String × String)

/-- The world the manager mutates: the registry (`instances` mapping plus the
`port_counter` field persisted in `registry.json`), and the per-instance
on-disk artifacts, each keyed by instance name since every path in the code
is a pure function of the name. -/
structure Sys where
  instances : List (String × Instance)
  port_counter : Nat
  configFiles : List (String × JVal)
  stateTrees : List (String × StateTree)
  serviceFiles : List (String × String)

/-- Fresh registry: `{"instances": {}, "port_counter": 0}` and no files. -/
def emptySys : Sys :=
  { instances := [], port_counter := 0, configFiles := [],
    stateTrees := [], serviceFiles := [] }

/-- Replace the registry mapping of a world state (proof-side helper). -/
def withInstances (sys : Sys) (xs : List (String × Instance)) : Sys :=
  { sys with instances := xs }

/-- External collaborators and non-deterministic inputs, injected explicitly.
`mainConfig`: `none` = `~/.openclaw/openclaw.json` absent,
`some (.error ())` = present but unparseable, `some (.ok fs)` = parses to
the JSON object with fields `fs`. -/
structure Env where
  listening : List Nat
  mainConfig : Option (Except Unit (List (String × JVal)))
  now : String
  token : String
  nodePath : String
  home : String
  confirm : String
  svcCreateOk : Bool
  statusOf : String → String

/-- Ports currently assigned in the registry (`{i.port for i in instances}`). -/
def usedPorts (sys : Sys) : List Nat :=
  sys.instances.map (fun kv => kv.2.port)

/-- The `while port in used_ports or is_port_listening(port)` scan of
`Registry.next_port`, with explicit fuel; the fuel chosen in `next_port`
is large enough that the scan always exits on a free port. -/
def scanPort (bad : Nat → Bool) : Nat → Nat → Nat
  | 0, p => p
  | fuel + 1, p => if bad p then scanPort bad fuel (p + PORT_INCREMENT) else p

/-- `Registry.next_port`: scan upward from `BASE_PORT` in steps of
`PORT_INCREMENT` until the candidate is neither assigned in the registry nor
reported live by the probe.  The registry's `port_counter` is not consulted. -/
def next_port (sys : Sys) (listening : List Nat) : Nat :=
  scanPort (fun p => (usedPorts sys).contains p || listening.contains p)
    ((usedPorts sys).length + listening.length + 1) BASE_PORT

/-- `Registry.port_in_use`: `any(i.port == port for i in instances)`. -/
def port_in_use (sys : Sys) (port : Nat) : Bool :=
  sys.instances.any (fun kv => kv.2.port = port)

/-! ## Config composer (`ConfigInheritor`) -/

/-- `ConfigInheritor.EXCLUDE_PATTERNS`.  Defined in the source but never
consulted by any code path; kept for fidelity. -/
def EXCLUDE_PATTERNS : List String := ["tailscale", "gateway.tailscale", "tailscale.*"]

/-- ASCII lower-casing, `str.lower()` on the names this tool handles. -/
def lowerStr (s : String) : String :=
  ⟨s.data.map Char.toLower⟩

/-- Whether `pat` is an initial segment of `cs`. -/
def startsWithL : List Char → List Char → Bool
  | [], _ => true
  | _ :: _, [] => false
  | p :: ps, c :: cs => p = c && startsWithL ps cs

/-- Substring containment over characters (Python `pat in s`). -/
def containsL (pat : List Char) : List Char → Bool
  | [] => startsWithL pat []
  | c :: cs => startsWithL pat (c :: cs) || containsL pat cs

/-- Case-insensitive substring test `"tailscale" in provider_name.lower()`. -/
def containsTailscale (s : String) : Bool :=
  containsL "tailscale".data (lowerStr s).data

/-- The provider-field allow-list from `extract_inheritable`:
`k in ["baseURL", "apiKey", "models", "baseUrl", "api"]`. -/
def inheritAllowKeys : List String := ["baseURL", "apiKey", "models", "baseUrl", "api"]

/-- The provider dict comprehension: keep only allow-listed fields, in the
original field order. -/
def sanitizeProvider (pfs : List (String × JVal)) : List (String × JVal) :=
  pfs.filter (fun kv => inheritAllowKeys.contains kv.1)

/-- The `agents`/`defaults` block of `extract_inheritable`.  Membership tests
on non-mapping values (where Python would raise in every case reached by
this code) are modelled as errors. -/
def extractAgents (fs : List (String × JVal)) : Except Unit (List (String × JVal)) :=
  match lookupA fs "agents" with
  | none => .ok []
  | some (.obj afs) =>
      match lookupA afs "defaults" with
      | none => .ok []
      | some (.obj dfs) =>
          let base : List (String × JVal) :=
            (match lookupA dfs "model" with
             | some m => [("model", m)]
             | none => []) ++
            (match lookupA dfs "models" with
             | some ms => [("models", ms)]
             | none => [])
          .ok [("agents", .obj [("defaults", .obj base)])]
      | some _ => .error ()
  | some _ => .error ()

/-- The provider loop of `extract_inheritable`: drop providers whose name
contains "tailscale" (case-insensitively), sanitize the rest. -/
def extractProvidersGo : List (String × JVal) → Except Unit (List (String × JVal))
  | [] => .ok []
  | (pname, pcfg) :: rest =>
      if containsTailscale pname then extractProvidersGo rest
      else
        match pcfg with
        | .obj pcfs =>
            match extractProvidersGo rest with
            | .ok tail => .ok ((pname, .obj (sanitizeProvider pcfs)) :: tail)
            | .error e => .error e
        | _ => .error ()

/-- The `providers` block of `extract_inheritable`: when the main config has
a `providers` mapping, the inherited document always gets a `providers` key
holding the filtered entries. -/
def extractProviders (fs : List (String × JVal)) : Except Unit (List (String × JVal)) :=
  match lookupA fs "providers" with
  | none => .ok []
  | some (.obj pfs) =>
      match extractProvidersGo pfs with
      | .ok entries => .ok [("providers", .obj entries)]
      | .error e => .error e
  | some _ => .error ()

/-- `ConfigInheritor.extract_inheritable`: agents/defaults sub-tree, filtered
providers, and the whole `models` entry, in that insertion order. -/
def extract_inheritable (fs : List (String × JVal)) :
    Except Unit (List (String × JVal)) :=
  match extractAgents fs with
  | .error e => .error e
  | .ok a =>
      match extractProviders fs with
      | .error e => .error e
      | .ok p =>
          .ok (a ++ p ++
            (match lookupA fs "models" with
             | some mv => [("models", mv)]
             | none => []))

/-- `ConfigInheritor.load_main_config`: absent file yields the empty dict;
a present file propagates its parse result — a parse failure raises. -/
def load_main_config (mainFile : Option (Except Unit (List (String × JVal)))) :
    Except Unit (List (String × JVal)) :=
  match mainFile with
  | none => .ok []
  | some r => r

/-- Python `dict.update`: assign each update entry in order (replace in
place, or append), i.e. a shallow merge where update values clobber. -/
def dictUpdate (base upd : List (String × JVal)) : List (String × JVal) :=
  upd.foldl (fun acc kv => setA acc kv.1 kv.2) base

/-- Drop a key from a dict (`del new_config["agent"]`). -/
def removeField (fs : List (String × JVal)) (k : String) : List (String × JVal) :=
  removeA fs k

/-- The legacy/modern reconciliation at the end of
`create_instance_config`: if both `agent` and `agents` are present and
`agents.defaults.model` exists, drop the legacy `agent` key.  The composed
base always makes `agents` a mapping, so the mapping patterns suffice. -/
def reconcileAgentKeys (merged : List (String × JVal)) : List (String × JVal) :=
  match lookupA merged "agent", lookupA merged "agents" with
  | some _, some (.obj afs) =>
      (match lookupA afs "defaults" with
       | some (.obj dfs) =>
           if (lookupA dfs "model").isSome then removeField merged "agent" else merged
       | _ => merged)
  | _, _ => merged

/-- `ConfigInheritor.create_instance_config`: load the main config (a parse
failure propagates), extract the inheritable settings, build the generated
base document, shallow-merge the inherited settings over it, reconcile. -/
def composeBase (env : Env) (name : String) (port : Nat) : List (String × JVal) :=
  [("meta", .obj
      [("lastTouchedVersion", .str "2026.2.15"),
       ("lastTouchedAt", .str (env.now ++ "Z"))]),
   ("gateway", .obj
      [("mode", .str "local"),
       ("port", .num port),
       ("bind", .str "loopback"),
       ("auth", .obj [("mode", .str "token"), ("token", .str env.token)])]),
   ("agents", .obj
      [("defaults", .obj
         [("workspace", .str (env.home ++ "/.openclaw-" ++ name ++ "/workspace")),
          ("compaction", .obj [("mode", .str "safeguard")]),
          ("maxConcurrent", .num 4),
          ("subagents", .obj [("maxConcurrent", .num 8)])])])]

def create_instance_config (main : Except Unit (List (String × JVal)))
    (name : String) (port : Nat) (env : Env) : Except Unit JVal :=
  match main with
  | .error e => .error e
  | .ok mainFs =>
      match extract_inheritable mainFs with
      | .error e => .error e
      | .ok inherited =>
          .ok (.obj (reconcileAgentKeys (dictUpdate (composeBase env name port) inherited)))



/-! ## Service descriptor (`SystemdManager.SERVICE_TEMPLATE`) -/

/-- `SystemdManager._get_path_env`. -/
def systemdPathEnv (home : String) : String :=
  home ++ "/.npm-global/bin:" ++ home ++ "/.local/bin:/usr/local/bin:/usr/bin:/bin"

/-- The rendered unit text of `SystemdManager.create_service` for an
instance; `profile` is passed as `instance.name` by the source. -/
def renderService (inst : Instance) (env : Env) : String :=
  let home := env.home
  let stateDir := home ++ "/.openclaw-" ++ inst.name
  let configPath := home ++ "/.openclaw/openclaw-" ++ inst.name ++ ".json"
  let openclawBin := home ++ "/.npm-global/bin/openclaw"
  "[Unit]\n" ++
  "Description=OpenClaw Gateway - " ++ inst.name ++ " (v2026.2.15)\n" ++
  "After=network-online.target\n" ++
  "Wants=network-online.target\n\n" ++
  "[Service]\n" ++
  "Type=simple\n" ++
  "ExecStart=" ++ env.nodePath ++ " " ++ openclawBin ++ " --profile " ++ inst.name ++
    " gateway --port " ++ toString inst.port ++ "\n" ++
  "Restart=always\n" ++
  "RestartSec=5\n" ++
  "KillMode=process\n" ++
  "Environment=HOME=" ++ home ++ "\n" ++
  "Environment=PATH=" ++ systemdPathEnv home ++ "\n" ++
  "Environment=OPENCLAW_GATEWAY_PORT=" ++ toString inst.port ++ "\n" ++
  "Environment=OPENCLAW_PROFILE=" ++ inst.name ++ "\n" ++
  "Environment=OPENCLAW_STATE_DIR=" ++ stateDir ++ "\n" ++
  "Environment=OPENCLAW_CONFIG_PATH=" ++ configPath ++ "\n\n" ++
  "[Install]\n" ++
  "WantedBy=default.target\n"

/-! ## Lifecycle orchestrator (`OpenClawManager`) -/

/-- Name validation `re.match(r"^[a-zA-Z0-9_-]+$", name)`. -/
def validName (s : String) : Bool :=
  s ≠ "" && s.data.all (fun c => c.isAlphanum || c = '_' || c = '-')

/-- The directory skeleton `create_instance` builds inside the state dir
(workspace, agents/main/sessions, credentials), as empty directory markers. -/
def initialStateTree : StateTree :=
  [("workspace", ""), ("agents", ""), ("agents/main", ""),
   ("agents/main/sessions", ""), ("credentials", "")]

/-- Injected failures for the fallible steps inside `create_instance`'s
`try` block: directory creation, the config write (`json.dump`), and the
registry persistence in `Registry.add`.  The systemd step's success is
`env.svcCreateOk` and the composer's only failure is an unparseable main
config. -/
structure FailSpec where
  mkdirFail : Bool := false
  writeConfigFail : Bool := false
  addFail : Bool := false
deriving Repr, DecidableEq

def failNone : FailSpec := {}

inductive CreateErr where
  | invalidName
  | reservedName
  | alreadyExists
  | portInUse
  | createFailed
deriving Repr, DecidableEq

/-- `OpenClawManager._cleanup_partial`: remove the instance's state tree,
config file and service file (each only if present; removal modelled as
effective — the code swallows exceptions during cleanup).  The registry is
not touched. -/
def cleanup_partial (sys : Sys) (name : String) : Sys :=
  { sys with
    stateTrees := removeA sys.stateTrees name,
    configFiles := removeA sys.configFiles name,
    serviceFiles := removeA sys.serviceFiles name }

/-- The model override applied by `create_instance` when a model was
requested: ensure `agents.defaults` exists as a mapping, then set
`agents.defaults.model = {"primary": model}`.  The composed document always
makes `agents` and `defaults` mappings, so the non-mapping fallbacks are
unreachable from `create_instance`. -/
def applyModelOverride (cfg : JVal) (model : String) : JVal :=
  match cfg with
  | .obj fs =>
      let afs :=
        match lookupA fs "agents" with
        | some (.obj a) => a
        | _ => []
      let dfs :=
        match lookupA afs "defaults" with
        | some (.obj d) => d
        | _ => []
      let dfs' := setA dfs "model" (.obj [("primary", .str model)])
      .obj (setA fs "agents" (.obj (setA afs "defaults" (.obj dfs'))))
  | _ => cfg

/-- The record `create_instance` builds for a chosen port. -/
def mkInstance (env : Env) (name : String) (port : Nat)
    (modelArg : Option String) : Instance :=
  { name := name, port := port, profile := name,
    created_at := env.now, model := modelArg.getD "" }

/-- The `try` block of `create_instance`, after the port is determined:
state tree, composed config, model override, config write, systemd unit,
firewall, registry commit — with `_cleanup_partial` on any failure.
`mkdir(exist_ok=True)` keeps a pre-existing state tree's content.  The
firewall call has no tracked effect. -/
def create_try (env : Env) (fail : FailSpec) (sys : Sys) (name : String)
    (port : Nat) (modelArg : Option String) : Except CreateErr Unit × Sys :=
  let inst := mkInstance env name port modelArg
  if fail.mkdirFail then (.error .createFailed, cleanup_partial sys name)
  else
    let tree := (lookupA sys.stateTrees name).getD initialStateTree
    let s1 := { sys with stateTrees := setA sys.stateTrees name tree }
    match create_instance_config (load_main_config env.mainConfig) name port env with
    | .error _ => (.error .createFailed, cleanup_partial s1 name)
    | .ok cfg0 =>
      let cfg :=
        match modelArg with
        | some m => applyModelOverride cfg0 m
        | none => cfg0
      if fail.writeConfigFail then (.error .createFailed, cleanup_partial s1 name)
      else
        let s2 := { s1 with configFiles := setA s1.configFiles name cfg }
        if ¬ env.svcCreateOk then (.error .createFailed, cleanup_partial s2 name)
        else
          let s3 := { s2 with serviceFiles := setA s2.serviceFiles name (renderService inst env) }
          if fail.addFail then (.error .createFailed, cleanup_partial s3 name)
          else (.ok (), { s3 with instances := setA s3.instances name inst })

/-- `OpenClawManager.create_instance`: validation, the already-exists check,
port selection (allocate when none given, reject a colliding explicit
port), then the `try` block. -/
def create_instance (env : Env) (fail : FailSpec) (sys : Sys) (name : String)
    (portArg : Option Nat) (modelArg : Option String) :
    Except CreateErr Unit × Sys :=
  if ¬ validName name then (.error .invalidName, sys)
  else if name = MAIN_PROFILE then (.error .reservedName, sys)
  else if (lookupA sys.instances name).isSome then (.error .alreadyExists, sys)
  else
    match portArg with
    | none => create_try env fail sys name (next_port sys env.listening) modelArg
    | some p =>
        if port_in_use sys p then (.error .portInUse, sys)
        else create_try env fail sys name p modelArg

inductive DelErr where
  | notFound
  | protectedMain
  | cancelled
deriving Repr, DecidableEq

/-- `OpenClawManager.delete_instance`: not-found and reserved-name checks;
without `force` an interactive confirmation (`env.confirm`) whose answer
other than `y` cancels with no mutation.  On proceeding: stop / disable /
remove the unit file, close the firewall port, remove the state tree and
config file, then remove the registry entry.  There is no check of the
instance's running state anywhere in this function. -/
def delete_instance (env : Env) (sys : Sys) (name : String) (force : Bool) :
    Except DelErr Unit × Sys :=
  match lookupA sys.instances name with
  | none => (.error .notFound, sys)
  | some _ =>
    if name = MAIN_PROFILE then (.error .protectedMain, sys)
    else if ¬ force ∧ lowerStr env.confirm ≠ "y" then (.error .cancelled, sys)
    else
      let s1 := { sys with serviceFiles := removeA sys.serviceFiles name }
      let s2 := { s1 with stateTrees := removeA s1.stateTrees name }
      let s3 := { s2 with configFiles := removeA s2.configFiles name }
      (.ok (), { s3 with instances := removeA s3.instances name })

/-! ## Edit (`OpenClawManager.edit_instance`) -/

/-- JSON insignificant whitespace (`json.decoder.WHITESPACE`). -/
def isJsonWs (c : Char) : Bool :=
  c = ' ' || c = '\t' || c = '\n' || c = '\r'

def skipWs (cs : List Char) : List Char :=
  cs.dropWhile isJsonWs

def hexVal (c : Char) : Option Nat :=
  if '0' ≤ c ∧ c ≤ '9' then some (c.toNat - 48)
  else if 'a' ≤ c ∧ c ≤ 'f' then some (c.toNat - 87)
  else if 'A' ≤ c ∧ c ≤ 'F' then some (c.toNat - 55)
  else none

def hex4 (h1 h2 h3 h4 : Char) : Option Nat :=
  match hexVal h1, hexVal h2, hexVal h3, hexVal h4 with
  | some a, some b, some c, some d => some (((a * 16 + b) * 16 + c) * 16 + d)
  | _, _, _, _ => none

/-- The body of a JSON string after the opening quote, with Python's
strict rules: the recognised backslash escapes including `\uXXXX` with
surrogate-pair combination, and a hard error on unescaped control
characters.  A `\uXXXX` that leaves a lone surrogate half is a parse
failure in the model: Python returns a lone-surrogate `str`, which has no
counterpart among Lean's unicode-scalar strings. -/
def parseJStringGo : Nat → List Char → List Char → Option (String × List Char)
  | 0, _, _ => none
  | fuel + 1, cs, acc =>
      match cs with
      | [] => none
      | '"' :: rest => some (⟨acc.reverse⟩, rest)
      | '\\' :: esc =>
          (match esc with
           | '"' :: r => parseJStringGo fuel r ('"' :: acc)
           | '\\' :: r => parseJStringGo fuel r ('\\' :: acc)
           | '/' :: r => parseJStringGo fuel r ('/' :: acc)
           | 'b' :: r => parseJStringGo fuel r ('\x08' :: acc)
           | 'f' :: r => parseJStringGo fuel r ('\x0C' :: acc)
           | 'n' :: r => parseJStringGo fuel r ('\n' :: acc)
           | 'r' :: r => parseJStringGo fuel r ('\r' :: acc)
           | 't' :: r => parseJStringGo fuel r ('\t' :: acc)
           | 'u' :: h1 :: h2 :: h3 :: h4 :: r =>
               (match hex4 h1 h2 h3 h4 with
                | none => none
                | some u =>
                    if 0xD800 ≤ u ∧ u ≤ 0xDBFF then
                      match r with
                      | '\\' :: 'u' :: g1 :: g2 :: g3 :: g4 :: r2 =>
                          (match hex4 g1 g2 g3 g4 with
                           | some u2 =>
                               if 0xDC00 ≤ u2 ∧ u2 ≤ 0xDFFF then
                                 parseJStringGo fuel r2
                                   (Char.ofNat
                                     (0x10000 + (u - 0xD800) * 0x400 + (u2 - 0xDC00)) :: acc)
                               else none
                           | none => none)
                      | _ => none
                    else if 0xDC00 ≤ u ∧ u ≤ 0xDFFF then none
                    else parseJStringGo fuel r (Char.ofNat u :: acc))
           | _ => none)
      | c :: rest =>
          if c.toNat < 32 then none
          else parseJStringGo fuel rest (c :: acc)

/-- Digits accumulated onto a value (`[0-9]*` after a first digit). -/
def takeDigits : Nat → List Char → Nat × List Char
  | n, c :: r => if c.isDigit then takeDigits (n * 10 + (c.toNat - 48)) r else (n, c :: r)
  | n, [] => (n, [])

/-- Digits accumulated with their count, for the fraction part. -/
def takeDigitsCount : Nat → Nat → List Char → Nat × Nat × List Char
  | v, n, c :: r =>
      if c.isDigit then takeDigitsCount (v * 10 + (c.toNat - 48)) (n + 1) r
      else (v, n, c :: r)
  | v, n, [] => (v, n, [])

/-- The integer part of Python's JSON number regex, `0|[1-9][0-9]*`: a
leading zero is the whole integer part, so `05` leaves `5` unconsumed and
the decode later fails on the extra data, exactly as `json.loads("05")`
raises. -/
def parseIntPart : List Char → Option (Nat × List Char)
  | '0' :: r => some (0, r)
  | c :: r => if c.isDigit then some (takeDigits (c.toNat - 48) r) else none
  | [] => none

/-- The optional fraction group `\.[0-9]+`; a dot not followed by a digit
is left unconsumed (the regex group simply fails to match). -/
def parseFrac : List Char → Option (Nat × Nat × List Char)
  | '.' :: c :: r =>
      if c.isDigit then some (takeDigitsCount (c.toNat - 48) 1 r) else none
  | _ => none

/-- The optional exponent group `[eE][+-]?[0-9]+`, likewise left
unconsumed when it does not match. -/
def parseExp : List Char → Option (Int × List Char)
  | c :: r =>
      if c = 'e' ∨ c = 'E' then
        match r with
        | '+' :: c2 :: r2 =>
            if c2.isDigit then
              let p := takeDigits (c2.toNat - 48) r2
              some ((p.1 : Int), p.2)
            else none
        | '-' :: c2 :: r2 =>
            if c2.isDigit then
              let p := takeDigits (c2.toNat - 48) r2
              some (-(p.1 : Int), p.2)
            else none
        | c2 :: r2 =>
            if c2.isDigit then
              let p := takeDigits (c2.toNat - 48) r2
              some ((p.1 : Int), p.2)
            else none
        | [] => none
      else none
  | [] => none

/-- Fold trailing decimal zeros of the mantissa into the exponent, so that
lexemes denoting the same decimal (`1.5`, `1.50`, `15e-1`, `1000.0` vs
`1e3`) meet in one representative. -/
def stripZeros : Nat → Nat → Int → Nat × Int
  | 0, m, e => (m, e)
  | fuel + 1, m, e =>
      if m % 10 = 0 ∧ m ≠ 0 then stripZeros fuel (m / 10) (e + 1) else (m, e)

def normFloat (neg : Bool) (m : Nat) (e : Int) : FloatRepr :=
  if m = 0 then .dec 0 0
  else
    let p := stripZeros m m e
    .dec (if neg then -(p.1 : Int) else (p.1 : Int)) p.2

/-- Assemble a parsed number: an integer when neither fraction nor
exponent matched (Python hands the lexeme to `int`), otherwise the exact
decimal the float lexeme denotes. -/
def finishNumber (neg : Bool) (ip : Nat) (rest : List Char) : JVal × List Char :=
  match parseFrac rest with
  | some (fv, fc, r1) =>
      (match parseExp r1 with
       | some (ex, r2) => (.float (normFloat neg (ip * 10 ^ fc + fv) (ex - (fc : Int))), r2)
       | none => (.float (normFloat neg (ip * 10 ^ fc + fv) (-(fc : Int))), r1))
  | none =>
      match parseExp rest with
      | some (ex, r1) => (.float (normFloat neg ip ex), r1)
      | none => (.num (if neg then -(ip : Int) else (ip : Int)), rest)

/-- Python's `NUMBER_RE`: optional sign, integer part, optional fraction,
optional exponent. -/
def parseJNumber (cs : List Char) : Option (JVal × List Char) :=
  match cs with
  | '-' :: r =>
      (match parseIntPart r with
       | some (ip, r1) => some (finishNumber true ip r1)
       | none => none)
  | _ =>
      match parseIntPart cs with
      | some (ip, r1) => some (finishNumber false ip r1)
      | none => none

/-- A JSON object's pairs become a dict: sequential assignment, so a
duplicate key keeps its first position and last value. -/
def mkJObj (pairs : List (String × JVal)) : List (String × JVal) :=
  pairs.foldl (fun d kv => setA d kv.1 kv.2) []

/-- What the parser is currently reading: a value, the members of an
object (after the opening brace and any first-key whitespace), or the
items of an array. -/
inductive PMode where
  | value
  | members (acc : List (String × JVal))
  | items (acc : List JVal)

/-- The scanner of `json.loads` (`py_make_scanner`/`JSONObject`/
`JSONArray`): strings, objects, arrays, the `null`/`true`/`false`
literals, numbers, and the `NaN`/`Infinity`/`-Infinity` constants, with
insignificant whitespace between tokens.  Fuel only bounds the recursion;
every recursive call consumes input, so the fuel chosen in `jsonLoads`
never runs out. -/
def parseJ : Nat → PMode → List Char → Option (JVal × List Char)
  | 0, _, _ => none
  | fuel + 1, .value, cs =>
      (match skipWs cs with
       | '{' :: rest =>
           (match skipWs rest with
            | '}' :: r2 => some (.obj [], r2)
            | cs2 => parseJ fuel (.members []) cs2)
       | '[' :: rest =>
           (match skipWs rest with
            | ']' :: r2 => some (.arr [], r2)
            | cs2 => parseJ fuel (.items []) cs2)
       | '"' :: rest =>
           (match parseJStringGo (rest.length + 1) rest [] with
            | some (s, r) => some (.str s, r)
            | none => none)
       | 'n' :: 'u' :: 'l' :: 'l' :: rest => some (.null, rest)
       | 't' :: 'r' :: 'u' :: 'e' :: rest => some (.bool true, rest)
       | 'f' :: 'a' :: 'l' :: 's' :: 'e' :: rest => some (.bool false, rest)
       | 'N' :: 'a' :: 'N' :: rest => some (.float .nan, rest)
       | 'I' :: 'n' :: 'f' :: 'i' :: 'n' :: 'i' :: 't' :: 'y' :: rest =>
           some (.float (.inf false), rest)
       | '-' :: 'I' :: 'n' :: 'f' :: 'i' :: 'n' :: 'i' :: 't' :: 'y' :: rest =>
           some (.float (.inf true), rest)
       | cs1 => parseJNumber cs1)
  | fuel + 1, .members acc, cs =>
      (match cs with
       | '"' :: rest =>
           (match parseJStringGo (rest.length + 1) rest [] with
            | none => none
            | some (k, r1) =>
                match skipWs r1 with
                | ':' :: r2 =>
                    (match parseJ fuel .value r2 with
                     | none => none
                     | some (v, r3) =>
                         match skipWs r3 with
                         | '}' :: r4 => some (.obj (mkJObj (acc ++ [(k, v)])), r4)
                         | ',' :: r4 => parseJ fuel (.members (acc ++ [(k, v)])) (skipWs r4)
                         | _ => none)
                | _ => none)
       | _ => none)
  | fuel + 1, .items acc, cs =>
      match parseJ fuel .value cs with
      | none => none
      | some (v, r1) =>
          match skipWs r1 with
          | ']' :: r2 => some (.arr (acc ++ [v]), r2)
          | ',' :: r2 => parseJ fuel (.items (acc ++ [v])) r2
          | _ => none

/-- Model of `json.loads(value)`: strip leading whitespace, scan one JSON
value, and require only whitespace after it (`Extra data` otherwise) —
which is also what rejects `05`: the number scan consumes just `0`. -/
def jsonLoads (s : String) : Option JVal :=
  match parseJ (s.length + 1) .value s.data with
  | some (v, rest) => if skipWs rest = [] then some v else none
  | none => none

/-- `parsed_value`: the JSON parse when it succeeds, otherwise the literal
string. -/
def interpRaw (raw : String) : JVal :=
  (jsonLoads raw).getD (.str raw)

/-- Accumulating splitter for `splitDot`. -/
def splitDotGo : List Char → List Char → List String
  | [], acc => [⟨acc.reverse⟩]
  | c :: rest, acc =>
      if c = '.' then ⟨acc.reverse⟩ :: splitDotGo rest []
      else splitDotGo rest (c :: acc)

/-- Python `key.split(".")`: every maximal run between dots, with empty
pieces kept (`"".split(".") == [""]`, `"a.".split(".") == ["a", ""]`). -/
def splitDot (key : String) : List String :=
  splitDotGo key.data []

/-- The dot-path walk of `edit_instance`: walk `keys[:-1]` creating missing
intermediate mappings as empty dicts, then assign the final segment.  Any
non-mapping value met along the way (including the final container) raises
in Python — modelled as an error. -/
def setPath (v : JVal) (keys : List String) (newVal : JVal) : Except Unit JVal :=
  match keys with
  | [] => .error ()
  | [k] =>
      match v with
      | .obj fs => .ok (.obj (setA fs k newVal))
      | _ => .error ()
  | k :: rest =>
      match v with
      | .obj fs =>
          let child := (lookupA fs k).getD (.obj [])
          match setPath child rest newVal with
          | .ok child' => .ok (.obj (setA fs k child'))
          | .error e => .error e
      | _ => .error ()

/-- `OpenClawManager.edit_instance`: look up the instance and its config
file, split the key on `.`, apply the dot-path assignment with the
parse-or-literal value, and write the document back whole only on success.
The conditional service restart afterwards does not touch tracked state. -/
def edit_instance (_env : Env) (sys : Sys) (name key raw : String) : Bool × Sys :=
  match lookupA sys.instances name with
  | none => (false, sys)
  | some _ =>
    match lookupA sys.configFiles name with
    | none => (false, sys)
    | some cfg =>
      match setPath cfg (splitDot key) (interpRaw raw) with
      | .error _ => (false, sys)
      | .ok cfg' => (true, { sys with configFiles := setA sys.configFiles name cfg' })

/-! ## Backup and restore -/

/-- A backup archive: state-tree entries stored under the `state/` prefix,
the config document, the unit text, and the metadata record. -/
structure Archive where
  state : StateTree
  configEntry : Option JVal
  serviceEntry : Option String
  metadataEntry : Option (List (String × JVal))

/-- `OpenClawManager.backup_instance`: `none` when the name is not
registered, else the archive.  Missing artifacts are simply skipped by the
code; the state tree defaults to empty entries, matching an absent dir. -/
def backup_instance (env : Env) (sys : Sys) (name : String) : Option Archive :=
  match lookupA sys.instances name with
  | none => none
  | some inst =>
      some
        { state := (lookupA sys.stateTrees name).getD [],
          configEntry := lookupA sys.configFiles name,
          serviceEntry := lookupA sys.serviceFiles name,
          metadataEntry := some
            [("name", .str inst.name),
             ("port", .num inst.port),
             ("profile", .str inst.profile),
             ("model", .str inst.model),
             ("created_at", .str inst.created_at),
             ("backup_date", .str env.now)] }

inductive RestoreErr where
  | archiveNotFound
  | invalidArchive
  | alreadyExists
  | restoreFailed
deriving Repr, DecidableEq

/-- A metadata field read with a string default (`metadata.get(k, d)`);
backup always writes strings for the fields read this way. -/
def jstrD (v : Option JVal) (d : String) : String :=
  match v with
  | some (.str s) => s
  | _ => d

/-- The staged extraction then merge of the archived state into the state
dir: with no pre-existing dir the result is exactly the archive content;
with one (`mkdir(exist_ok=True)` keeps it) archive entries overwrite
same-named paths and other existing entries survive (`copytree` with
`dirs_exist_ok`). -/
def restoredTree (oldTree : Option StateTree) (arch : StateTree) : StateTree :=
  match oldTree with
  | none => arch
  | some old => arch.foldl (fun acc e => setA acc e.1 e.2) old

/-- `config["gateway"]["port"] = port` on the archived config document; a
missing or non-mapping `gateway` raises (`KeyError`/`TypeError`). -/
def setConfigPort (c : JVal) (port : Nat) : Except Unit JVal :=
  match c with
  | .obj fs =>
      match lookupA fs "gateway" with
      | some (.obj gfs) =>
          .ok (.obj (setA fs "gateway" (.obj (setA gfs "port" (.num port)))))
      | _ => .error ()
  | _ => .error ()

/-- The tail of `restore_instance` after the config step: write the unit
file (result ignored by the code, so failure is silent) and commit the
record to the registry. -/
def restore_finish (env : Env) (inst : Instance) (s : Sys) :
    Except RestoreErr Unit × Sys :=
  let s4 :=
    if env.svcCreateOk then
      { s with serviceFiles := setA s.serviceFiles inst.name (renderService inst env) }
    else s
  (.ok (), { s4 with instances := setA s4.instances inst.name inst })

/-- The body of `restore_instance` once the target name is settled and the
optional force-delete has run, starting from world state `s1`: allocate a
new port, rebuild the record, merge the staged state extraction, rewrite
the archived config's port (a failure here leaves the already-written
state tree in place: the code has no rollback in restore), then the unit
file and the registry commit. -/
def restore_go (env : Env) (s1 : Sys) (A : Archive)
    (mfs : List (String × JVal)) (restoreName : String) :
    Except RestoreErr Unit × Sys :=
  let port := next_port s1 env.listening
  let inst : Instance :=
    { name := restoreName, port := port, profile := restoreName,
      created_at := env.now, model := jstrD (lookupA mfs "model") "" }
  let tree := restoredTree (lookupA s1.stateTrees restoreName) A.state
  let s2 := { s1 with stateTrees := setA s1.stateTrees restoreName tree }
  match A.configEntry with
  | some c =>
      match setConfigPort c port with
      | .error _ => (.error .restoreFailed, s2)
      | .ok c' =>
          restore_finish env inst
            { s2 with configFiles := setA s2.configFiles restoreName c' }
  | none => restore_finish env inst s2

/-- `OpenClawManager.restore_instance`: archive and metadata checks; the
target name defaults to the archived name; an existing target without
`force` fails, with `force` it is first deleted (the delete's result is
ignored by the code).  A new port always comes from `next_port` — the
archived port is read into a local that is never used by the rest of the
function. -/
def restore_instance (env : Env) (sys : Sys) (arch : Option Archive)
    (nameArg : Option String) (force : Bool) : Except RestoreErr Unit × Sys :=
  match arch with
  | none => (.error .archiveNotFound, sys)
  | some A =>
    match A.metadataEntry with
    | none => (.error .invalidArchive, sys)
    | some mfs =>
      let restoreName := nameArg.getD (jstrD (lookupA mfs "name") "unknown")
      if (lookupA sys.instances restoreName).isSome ∧ ¬ force then
        (.error .alreadyExists, sys)
      else if force ∧ (lookupA sys.instances restoreName).isSome then
        restore_go env (delete_instance env sys restoreName true).2 A mfs restoreName
      else restore_go env sys A mfs restoreName

/-! ## Operation sequences -/

/-- One invocation of a registry-mutating lifecycle operation, with its
environment and injected failures. -/
inductive Op where
  | createOp (env : Env) (fail : FailSpec) (name : String)
      (portArg : Option Nat) (modelArg : Option String)
  | deleteOp (env : Env) (name : String) (force : Bool)
  | restoreOp (env : Env) (arch : Option Archive)
      (nameArg : Option String) (force : Bool)

/-- Apply one operation to the world state. -/
def applyOp (sys : Sys) : Op → Sys
  | .createOp env fail name p m => (create_instance env fail sys name p m).2
  | .deleteOp env name f => (delete_instance env sys name f).2
  | .restoreOp env a n f => (restore_instance env sys a n f).2

/-- Run a sequence of operations from the empty registry. -/
def runOps (ops : List Op) : Sys :=
  ops.foldl applyOp emptySys

/-- Port uniqueness: the ports held by the registry entries are pairwise
distinct. -/
def distinctPorts (sys : Sys) : Prop :=
  (usedPorts sys).Pairwise (fun a b => a ≠ b)

/-- Reading back a dot path, for stating which parts of a document an
operation changed (`getPath v [] = v`; descend through mappings). -/
def getPath : JVal → List String → Option JVal
  | v, [] => some v
  | .obj fs, k :: rest =>
      match lookupA fs k with
      | some v => getPath v rest
      | none => none
  | _, _ :: _ => none

/-- Paths that split from `keys` at some segment: neither an ancestor nor a
descendant of the edited path.  These are the document positions the claim
calls "outside that path". -/
def diverges : List String → List String → Bool
  | [], _ => false
  | _, [] => false
  | k :: ks, p :: ps => if k = p then diverges ks ps else true

/-- The situation of claim C10: walking the dotted key meets a value that
already exists in the document and is not a mapping (possibly the container
of the final segment). -/
def pathBlocked : JVal → List String → Bool
  | _, [] => false
  | .obj _, [_] => false
  | .obj fs, k :: rest =>
      (match lookupA fs k with
       | some child => pathBlocked child rest
       | none => false)
  | _, _ :: _ => true

deriving instance DecidableEq for Except

/-! ## Concrete fixtures used by the claim-level theorems -/

/-- A benign environment: no live listeners, no main config on disk,
systemd succeeding, confirmation answered `y`. -/
def env0 : Env :=
  { listening := [], mainConfig := none, now := "2026-02-15T00:00:00",
    token := "746f6b", nodePath := "/usr/bin/node", home := "/home/op",
    confirm := "y", svcCreateOk := true, statusOf := fun _ => "inactive" }

/-- Same world, but the supervisor reports every unit active (running). -/
def envActive : Env := { env0 with statusOf := fun _ => "active" }

/-- Same world, but the confirmation prompt is answered `n`. -/
def envNo : Env := { env0 with confirm := "n" }

/-- Same world, but the systemd unit installation fails. -/
def envNoSvc : Env := { env0 with svcCreateOk := false }

/-- Same world, but the main config file exists and is unparseable. -/
def envBadMain : Env := { env0 with mainConfig := some (.error ()) }

def instW : Instance :=
  { name := "w", port := 18789, profile := "w", created_at := "t0" }

def treeW : StateTree :=
  initialStateTree ++ [("workspace/notes.txt", "hello")]

def cfgW : JVal :=
  .obj [("meta", .str "m"),
        ("gateway", .obj [("mode", .str "local"), ("port", .num 18789),
                          ("auth", .obj [("token", .str "abc")])]),
        ("agents", .obj [("defaults", .obj
          [("workspace", .str "/home/op/.openclaw-w/workspace")])])]

/-- A world with one fully provisioned instance `w`. -/
def sysW : Sys :=
  { instances := [("w", instW)], port_counter := 0,
    configFiles := [("w", cfgW)], stateTrees := [("w", treeW)],
    serviceFiles := [("w", "svc-w")] }

def c1s1 : Sys := (create_instance env0 failNone emptySys "a" none none).2

def c1s2 : Sys := (create_instance env0 failNone c1s1 "b" none none).2

def c1s3 : Sys := (delete_instance env0 c1s2 "a" true).2

def c1res : Except CreateErr Unit × Sys :=
  create_instance env0 failNone c1s3 "c" none none

/-- A main configuration whose provider entry carries an API key. -/
def mainCfgLeak : List (String × JVal) :=
  [("providers", .obj [("ppq", .obj [("apiKey", .str "sk-secret"),
                                     ("note", .str "x")])])]

/-- A main configuration with one ordinary and one tailscale provider. -/
def mainCfgMixed : List (String × JVal) :=
  [("providers", .obj
     [("openai", .obj [("apiKey", .str "k"), ("baseURL", .str "u"),
                       ("junk", .str "j")]),
      ("my-TailScale", .obj [("apiKey", .str "t")])])]

/-- What `extract_inheritable` keeps of `mainCfgMixed`. -/
def mainCfgMixedOut : List (String × JVal) :=
  [("providers", .obj
     [("openai", .obj [("apiKey", .str "k"), ("baseURL", .str "u")])])]

/-- The archive `backup_instance` produces for `w` in `sysW` under `env0`. -/
def archW : Archive :=
  { state := treeW,
    configEntry := some cfgW,
    serviceEntry := some "svc-w",
    metadataEntry := some
      [("name", .str "w"), ("port", .num 18789), ("profile", .str "w"),
       ("model", .str ""), ("created_at", .str "t0"),
       ("backup_date", .str "2026-02-15T00:00:00")] }

/-- An archive as `backup_instance` would produce for a small instance. -/
def archR : Archive :=
  { state := [("f", "x")],
    configEntry := some (.obj [("gateway", .obj [("port", .num 5),
                                                 ("bind", .str "loopback")])]),
    serviceEntry := none,
    metadataEntry := some [("name", .str "r"), ("port", .num 5)] }

/-! ## Association list lemmas -/

theorem lookupA_setA_self {α : Type} (xs : List (String × α)) (k : String) (v : α) :
    lookupA (setA xs k v) k = some v := by
  induction xs with
  | nil => simp [setA, lookupA]
  | cons hd tl ih =>
      by_cases h : hd.1 = k
      · simp [setA, h, lookupA]
      · simp [setA, h, lookupA, ih]

theorem lookupA_setA_other {α : Type} (xs : List (String × α)) (k k' : String) (v : α)
    (h : k' ≠ k) : lookupA (setA xs k v) k' = lookupA xs k' := by
  have hne : ¬ k = k' := fun hh => h hh.symm
  induction xs with
  | nil => simp [setA, lookupA, hne]
  | cons hd tl ih =>
      by_cases hk : hd.1 = k
      · simp [setA, hk, lookupA, hne]
      · simp [setA, hk, lookupA, ih]

theorem lookupA_removeA_self {α : Type} (xs : List (String × α)) (k : String) :
    lookupA (removeA xs k) k = none := by
  induction xs with
  | nil => simp [removeA, lookupA]
  | cons hd tl ih =>
      by_cases h : hd.1 = k
      · simpa [removeA, h] using ih
      · simpa [removeA, List.filter, h, lookupA] using ih

theorem lookupA_mem {α : Type} {xs : List (String × α)} {k : String} {v : α}
    (h : lookupA xs k = some v) : (k, v) ∈ xs := by
  induction xs with
  | nil => simp [lookupA] at h
  | cons hd tl ih =>
      by_cases hk : hd.1 = k
      · simp [lookupA, hk] at h
        have hhd : hd = (k, v) := by
          obtain ⟨a, b⟩ := hd
          simp only at hk h
          rw [hk, h]
        rw [hhd]
        exact List.mem_cons_self _ _
      · simp [lookupA, hk] at h
        exact List.mem_cons_of_mem _ (ih h)

/-! ## Port allocator lemmas -/

theorem PORT_INCREMENT_pos : 0 < PORT_INCREMENT := by
  simp [PORT_INCREMENT]

theorem scanPort_ge (bad : Nat → Bool) :
    ∀ (fuel q : Nat), q ≤ scanPort bad fuel q := by
  intro fuel
  induction fuel with
  | zero => intro q; simp [scanPort]
  | succ n ih =>
      intro q
      by_cases h : bad q
      · calc q ≤ q + PORT_INCREMENT := Nat.le_add_right _ _
        _ ≤ scanPort bad n (q + PORT_INCREMENT) := ih _
        _ = scanPort bad (n + 1) q := by simp [scanPort, h]
      · simp [scanPort, h]

theorem scanPort_congr (S : Finset ℕ) (p : ℕ) :
    ∀ (fuel q : ℕ), p < q →
      scanPort (fun x => decide (x ∈ S)) fuel q
        = scanPort (fun x => decide (x ∈ S.erase p)) fuel q := by
  intro fuel
  induction fuel with
  | zero => intro q _; simp [scanPort]
  | succ n ih =>
      intro q hpq
      by_cases hq : q ∈ S
      · have hq' : q ∈ S.erase p :=
          Finset.mem_erase.mpr ⟨by omega, hq⟩
        simp only [scanPort, hq, hq', decide_True, if_true]
        exact ih (q + PORT_INCREMENT) (by have := PORT_INCREMENT_pos; omega)
      · have hq' : q ∉ S.erase p := fun hmem => hq (Finset.mem_erase.mp hmem).2
        simp [scanPort, hq, hq']

theorem scanPort_avoids :
    ∀ (fuel : ℕ) (S : Finset ℕ) (q : ℕ), S.card < fuel →
      scanPort (fun x => decide (x ∈ S)) fuel q ∉ S := by
  intro fuel
  induction fuel with
  | zero => intro S q h; exact absurd h (Nat.not_lt_zero _)
  | succ n ih =>
      intro S q h
      by_cases hq : q ∈ S
      · have hstep : scanPort (fun x => decide (x ∈ S)) (n + 1) q
            = scanPort (fun x => decide (x ∈ S)) n (q + PORT_INCREMENT) := by
          simp [scanPort, hq]
        rw [hstep,
          scanPort_congr S q n (q + PORT_INCREMENT) (by have := PORT_INCREMENT_pos; omega)]
        have hcard : (S.erase q).card < n := by
          have := Finset.card_erase_of_mem hq
          have hpos : 0 < S.card := Finset.card_pos.mpr ⟨q, hq⟩
          omega
        have havoid := ih (S.erase q) (q + PORT_INCREMENT) hcard
        have hge := scanPort_ge (fun x => decide (x ∈ S.erase q)) n (q + PORT_INCREMENT)
        intro hmem
        apply havoid
        refine Finset.mem_erase.mpr ⟨?_, hmem⟩
        have := PORT_INCREMENT_pos
        omega
      · simp [scanPort, hq]

theorem contains_eq_decide_mem (l : List ℕ) (p : ℕ) :
    l.contains p = decide (p ∈ l) := by
  induction l with
  | nil => simp
  | cons hd tl ih => by_cases h : p = hd <;> simp [h, ih]

/-- The allocator never returns a port currently assigned in the registry,
nor one the liveness probe reports as in use. -/
theorem next_port_spec (sys : Sys) (listening : List Nat) :
    next_port sys listening ∉ usedPorts sys ∧ next_port sys listening ∉ listening := by
  classical
  unfold next_port
  have hfun : (fun p => (usedPorts sys).contains p || listening.contains p)
      = (fun x => decide (x ∈ ((usedPorts sys) ++ listening).toFinset)) := by
    funext p
    rw [contains_eq_decide_mem, contains_eq_decide_mem]
    simp [List.mem_toFinset, List.mem_append]
  rw [hfun]
  have hcard : (((usedPorts sys) ++ listening).toFinset).card
      < (usedPorts sys).length + listening.length + 1 := by
    have h1 := ((usedPorts sys) ++ listening).toFinset_card_le
    have h2 : ((usedPorts sys) ++ listening).length
        = (usedPorts sys).length + listening.length := List.length_append _ _
    omega
  have h := scanPort_avoids _ _ BASE_PORT hcard
  constructor
  · intro hmem
    exact h (List.mem_toFinset.mpr (List.mem_append.mpr (Or.inl hmem)))
  · intro hmem
    exact h (List.mem_toFinset.mpr (List.mem_append.mpr (Or.inr hmem)))

theorem port_in_use_false {sys : Sys} {p : Nat} (h : port_in_use sys p = false) :
    p ∉ usedPorts sys := by
  intro hmem
  simp only [usedPorts, List.mem_map] at hmem
  obtain ⟨kv, hkv, hport⟩ := hmem
  simp only [port_in_use, List.any_eq_false] at h
  have := h kv hkv
  simp [hport] at this


/-! ## Dot-path lemmas -/

theorem setPath_shape {c c' newVal : JVal} {k : String} {rest : List String}
    (h : setPath c (k :: rest) newVal = .ok c') :
    ∃ fs x, c = .obj fs ∧ c' = .obj (setA fs k x) := by
  cases rest with
  | nil =>
      cases c with
      | obj fs =>
          simp only [setPath, Except.ok.injEq] at h
          exact ⟨fs, newVal, rfl, h.symm⟩
      | null => simp [setPath] at h
      | bool b => simp [setPath] at h
      | num n => simp [setPath] at h
      | str s => simp [setPath] at h
      | arr xs => simp [setPath] at h
      | float f => simp [setPath] at h
  | cons k2 rest2 =>
      cases c with
      | obj fs =>
          simp only [setPath] at h
          cases hrec : setPath ((lookupA fs k).getD (.obj [])) (k2 :: rest2) newVal with
          | error e => rw [hrec] at h; simp at h
          | ok child' =>
              rw [hrec] at h
              simp only [Except.ok.injEq] at h
              exact ⟨fs, child', rfl, h.symm⟩
      | null => simp [setPath] at h
      | bool b => simp [setPath] at h
      | num n => simp [setPath] at h
      | str s => simp [setPath] at h
      | arr xs => simp [setPath] at h
      | float f => simp [setPath] at h

/-- A successful dot-path assignment stores the new value at the path. -/
theorem setPath_get_self :
    ∀ (keys : List String) (c c' newVal : JVal),
      setPath c keys newVal = .ok c' → getPath c' keys = some newVal := by
  intro keys
  induction keys with
  | nil => intro c c' newVal h; simp [setPath] at h
  | cons k rest ih =>
      intro c c' newVal h
      obtain ⟨fs, x, hc, hc'⟩ := setPath_shape h
      subst hc; subst hc'
      cases rest with
      | nil =>
          simp only [setPath, Except.ok.injEq, JVal.obj.injEq] at h
          have hx : newVal = x := by
            have h2 := congrArg (fun l => lookupA l k) h
            simpa [lookupA_setA_self] using h2
          subst hx
          simp [getPath, lookupA_setA_self]
      | cons k2 rest2 =>
          simp only [setPath] at h
          cases hrec : setPath ((lookupA fs k).getD (.obj [])) (k2 :: rest2) newVal with
          | error e => rw [hrec] at h; simp at h
          | ok child' =>
              rw [hrec] at h
              simp only [Except.ok.injEq, JVal.obj.injEq] at h
              have hx : child' = x := by
                have h2 := congrArg (fun l => lookupA l k) h
                simpa [lookupA_setA_self] using h2
              subst hx
              simp only [getPath, lookupA_setA_self]
              exact ih _ _ _ hrec

/-- A successful dot-path assignment leaves every path that splits from the
assigned one unchanged. -/
theorem setPath_diverges :
    ∀ (keys p : List String) (c c' newVal : JVal),
      setPath c keys newVal = .ok c' → diverges keys p = true →
      getPath c' p = getPath c p := by
  intro keys
  induction keys with
  | nil => intro p c c' newVal h _; simp [setPath] at h
  | cons k rest ih =>
      intro p c c' newVal h hdiv
      cases p with
      | nil => simp [diverges] at hdiv
      | cons q ps =>
          obtain ⟨fs, x, hc, hc'⟩ := setPath_shape h
          subst hc; subst hc'
          by_cases hkq : k = q
          · subst hkq
            simp only [diverges, if_true] at hdiv
            cases rest with
            | nil => simp [diverges] at hdiv
            | cons k2 rest2 =>
                simp only [setPath] at h
                cases hrec : setPath ((lookupA fs k).getD (.obj [])) (k2 :: rest2) newVal with
                | error e => rw [hrec] at h; simp at h
                | ok child' =>
                    rw [hrec] at h
                    simp only [Except.ok.injEq, JVal.obj.injEq] at h
                    have hx : child' = x := by
                      have h2 := congrArg (fun l => lookupA l k) h
                      simpa [lookupA_setA_self] using h2
                    subst hx
                    cases hlk : lookupA fs k with
                    | some ch =>
                        have hrec' : setPath ch (k2 :: rest2) newVal = .ok child' := by
                          rw [hlk] at hrec
                          simpa using hrec
                        have hpres := ih ps ch child' newVal hrec' hdiv
                        simp only [getPath, lookupA_setA_self, hlk]
                        exact hpres
                    | none =>
                        have hrec' : setPath (.obj []) (k2 :: rest2) newVal = .ok child' := by
                          rw [hlk] at hrec
                          simpa using hrec
                        have hpres := ih ps _ child' newVal hrec' hdiv
                        simp only [getPath, lookupA_setA_self, hlk]
                        rw [hpres]
                        cases ps with
                        | nil => simp [diverges] at hdiv
                        | cons q' ps' => simp [getPath, lookupA]
          · have hq : q ≠ k := fun hh => hkq hh.symm
            simp only [getPath, lookupA_setA_other fs k q x hq]

theorem pathBlocked_cons_obj (fs : List (String × JVal)) (k k2 : String)
    (rest2 : List String) :
    pathBlocked (.obj fs) (k :: k2 :: rest2)
      = (match lookupA fs k with
         | some child => pathBlocked child (k2 :: rest2)
         | none => false) := rfl

/-- When the walk meets an existing non-mapping value, the assignment
raises. -/
theorem pathBlocked_setPath_error :
    ∀ (keys : List String) (c : JVal), pathBlocked c keys = true →
      ∀ newVal, setPath c keys newVal = .error () := by
  intro keys
  induction keys with
  | nil => intro c h newVal; simp [pathBlocked] at h
  | cons k rest ih =>
      intro c h newVal
      cases c with
      | obj fs =>
          cases rest with
          | nil => simp [pathBlocked] at h
          | cons k2 rest2 =>
              rw [pathBlocked_cons_obj] at h
              cases hlk : lookupA fs k with
              | none => rw [hlk] at h; simp at h
              | some child =>
                  rw [hlk] at h
                  have herr := ih child h newVal
                  simp [setPath, hlk, herr]
      | null => cases rest <;> simp [setPath]
      | bool b => cases rest <;> simp [setPath]
      | num n => cases rest <;> simp [setPath]
      | str s => cases rest <;> simp [setPath]
      | arr xs => cases rest <;> simp [setPath]
      | float f => cases rest <;> simp [setPath]


/-- Fidelity of the `json.loads` model on representative inputs: quoted
strings, floats (one value per denoted decimal), arrays, objects and
surrounding whitespace parse as in Python, while `hello`, `05` (leading
zero) and `truex` (extra data) are parse errors, so `edit` stores them as
literal strings. -/
theorem jsonLoads_fidelity :
    jsonLoads "5" = some (.num 5)
    ∧ jsonLoads "hello" = none
    ∧ jsonLoads "\"hi\"" = some (.str "hi")
    ∧ jsonLoads "1.5" = some (.float (.dec 15 (-1)))
    ∧ jsonLoads "1.50" = some (.float (.dec 15 (-1)))
    ∧ jsonLoads "[1, 2]" = some (.arr [.num 1, .num 2])
    ∧ jsonLoads "\x7b\"a\": 1\x7d" = some (.obj [("a", .num 1)])
    ∧ jsonLoads " 5 " = some (.num 5)
    ∧ jsonLoads "05" = none
    ∧ jsonLoads "truex" = none
    ∧ interpRaw "05" = .str "05"
    ∧ interpRaw "\"hi\"" = .str "hi" :=
  ⟨rfl, rfl, rfl, rfl, rfl, rfl, rfl, rfl, rfl, rfl, rfl, rfl⟩

/-! ## Registry port-uniqueness lemmas -/

theorem mem_ports_setA (xs : List (String × Instance)) (k : String) (inst : Instance)
    {q : Nat} (h : q ∈ (setA xs k inst).map (fun kv => kv.2.port)) :
    q ∈ xs.map (fun kv => kv.2.port) ∨ q = inst.port := by
  induction xs with
  | nil => simp [setA] at h; right; exact h
  | cons hd tl ih =>
      by_cases hk : hd.1 = k
      · simp only [setA, hk, if_true, List.map_cons, List.mem_cons] at h
        rcases h with h | h
        · right; exact h
        · left; simp [h]
      · simp only [setA, hk, if_false, List.map_cons, List.mem_cons] at h
        rcases h with h | h
        · left; simp [h]
        · rcases ih h with h2 | h2
          · left; simp [h2]
          · right; exact h2

theorem distinct_setA {xs : List (String × Instance)} {k : String} {inst : Instance}
    (hpair : (xs.map (fun kv => kv.2.port)).Pairwise (fun a b => a ≠ b))
    (hfresh : inst.port ∉ xs.map (fun kv => kv.2.port)) :
    ((setA xs k inst).map (fun kv => kv.2.port)).Pairwise (fun a b => a ≠ b) := by
  induction xs with
  | nil => simp [setA]
  | cons hd tl ih =>
      simp only [List.map_cons, List.pairwise_cons] at hpair
      obtain ⟨hhd, htl⟩ := hpair
      have hfresh_tl : inst.port ∉ tl.map (fun kv => kv.2.port) := by
        intro hmem
        exact hfresh (by simp [hmem])
      have hfresh_hd : inst.port ≠ hd.2.port := by
        intro hh
        exact hfresh (by simp [hh])
      by_cases hk : hd.1 = k
      · simp only [setA, hk, if_true, List.map_cons, List.pairwise_cons]
        refine ⟨?_, htl⟩
        intro q hq hh
        exact hfresh_tl (hh ▸ hq)
      · simp only [setA, hk, if_false, List.map_cons, List.pairwise_cons]
        refine ⟨?_, ih htl hfresh_tl⟩
        intro q hq
        rcases mem_ports_setA tl k inst hq with h2 | h2
        · exact hhd q h2
        · rw [h2]
          exact fun hh => hfresh_hd hh.symm

theorem distinct_of_instances_eq {s t : Sys} (h : s.instances = t.instances)
    (ht : distinctPorts t) : distinctPorts s := by
  unfold distinctPorts usedPorts at ht ⊢
  rw [h]
  exact ht

theorem distinct_removeA {sys : Sys} (name : String) (h : distinctPorts sys) :
    ((removeA sys.instances name).map (fun kv => kv.2.port)).Pairwise
      (fun a b => a ≠ b) :=
  h.sublist ((List.filter_sublist _).map _)

/-- `delete_instance` preserves pairwise-distinct ports. -/
theorem delete_preserves_distinct (env : Env) (sys : Sys) (name : String)
    (force : Bool) (h : distinctPorts sys) :
    distinctPorts (delete_instance env sys name force).2 := by
  unfold delete_instance
  cases hlk : lookupA sys.instances name with
  | none => exact h
  | some inst =>
      by_cases h1 : name = MAIN_PROFILE
      · rw [if_pos h1]
        exact h
      · rw [if_neg h1]
        by_cases h2 : ¬ force ∧ lowerStr env.confirm ≠ "y"
        · rw [if_pos h2]
          exact h
        · rw [if_neg h2]
          exact distinct_removeA name h

/-- Every outcome of the `try` block either leaves the registry untouched
or appends the new record, whose port is the one passed in. -/
theorem create_try_shape (env : Env) (fail : FailSpec) (sys : Sys)
    (name : String) (port : Nat) (modelArg : Option String) :
    (create_try env fail sys name port modelArg).2.instances = sys.instances
    ∨ (create_try env fail sys name port modelArg).2.instances
        = setA sys.instances name (mkInstance env name port modelArg) := by
  unfold create_try
  repeat' split
  all_goals first
    | exact Or.inl rfl
    | exact Or.inr rfl

/-- The `try` block either fails with `createFailed` and a fully cleaned-up
world (no artifact for the name, registry untouched), or reports success. -/
theorem create_try_cases (env : Env) (fail : FailSpec) (sys : Sys)
    (name : String) (port : Nat) (modelArg : Option String) :
    (∃ s', create_try env fail sys name port modelArg = (.error .createFailed, s')
      ∧ lookupA s'.stateTrees name = none
      ∧ lookupA s'.configFiles name = none
      ∧ lookupA s'.serviceFiles name = none
      ∧ s'.instances = sys.instances)
    ∨ (create_try env fail sys name port modelArg).1 = .ok () := by
  unfold create_try
  repeat' split
  all_goals first
    | (right; rfl)
    | (left
       exact ⟨_, rfl, lookupA_removeA_self _ _, lookupA_removeA_self _ _,
         lookupA_removeA_self _ _, rfl⟩)

/-- `create_instance` preserves pairwise-distinct ports: the allocator and
the explicit-port guard both certify freshness. -/
theorem create_preserves_distinct (env : Env) (fail : FailSpec) (sys : Sys)
    (name : String) (portArg : Option Nat) (modelArg : Option String)
    (h : distinctPorts sys) :
    distinctPorts (create_instance env fail sys name portArg modelArg).2 := by
  unfold create_instance
  by_cases h1 : ¬ validName name
  · rw [if_pos h1]; exact h
  · rw [if_neg h1]
    by_cases h2 : name = MAIN_PROFILE
    · rw [if_pos h2]; exact h
    · rw [if_neg h2]
      by_cases h3 : (lookupA sys.instances name).isSome
      · rw [if_pos h3]; exact h
      · rw [if_neg h3]
        cases portArg with
        | none =>
            have ht : distinctPorts (withInstances sys (setA sys.instances name (mkInstance env name (next_port sys env.listening) modelArg))) :=
              distinct_setA h (next_port_spec sys env.listening).1
            rcases create_try_shape env fail sys name (next_port sys env.listening)
                modelArg with hs | hs
            · exact distinct_of_instances_eq hs h
            · exact distinct_of_instances_eq hs ht
        | some p =>
            dsimp only
            by_cases hp : port_in_use sys p
            · rw [if_pos hp]; exact h
            · rw [if_neg hp]
              have ht : distinctPorts (withInstances sys (setA sys.instances name (mkInstance env name p modelArg))) :=
                distinct_setA h (port_in_use_false (by simpa using hp))
              rcases create_try_shape env fail sys name p modelArg with hs | hs
              · exact distinct_of_instances_eq hs h
              · exact distinct_of_instances_eq hs ht

/-- The restore body preserves pairwise-distinct ports: the committed
record's port is freshly allocated against `s1`, which is also the registry
the commit updates. -/
theorem restore_go_distinct (env : Env) (s1 : Sys) (A : Archive)
    (mfs : List (String × JVal)) (restoreName : String)
    (h : distinctPorts s1) :
    distinctPorts (restore_go env s1 A mfs restoreName).2 := by
  have hset : distinctPorts (withInstances s1 (setA s1.instances restoreName { name := restoreName, port := next_port s1 env.listening, profile := restoreName, created_at := env.now, model := jstrD (lookupA mfs "model") "" })) :=
    distinct_setA h (next_port_spec s1 env.listening).1
  unfold restore_go restore_finish
  cases A.configEntry with
  | none =>
      dsimp only
      split
      · exact distinct_of_instances_eq rfl hset
      · exact distinct_of_instances_eq rfl hset
  | some c =>
      dsimp only
      split
      · exact distinct_of_instances_eq rfl h
      · split
        · exact distinct_of_instances_eq rfl hset
        · exact distinct_of_instances_eq rfl hset

/-- `restore_instance` preserves pairwise-distinct ports. -/
theorem restore_preserves_distinct (env : Env) (sys : Sys)
    (arch : Option Archive) (nameArg : Option String) (force : Bool)
    (h : distinctPorts sys) :
    distinctPorts (restore_instance env sys arch nameArg force).2 := by
  unfold restore_instance
  cases arch with
  | none => exact h
  | some A =>
      dsimp only
      cases A.metadataEntry with
      | none => exact h
      | some mfs =>
          dsimp only
          split
          · exact h
          split
          · exact restore_go_distinct _ _ _ _ _
              (delete_preserves_distinct _ _ _ _ h)
          · exact restore_go_distinct _ _ _ _ _ h

/-! ## Inheritance-extraction lemmas -/

theorem lookupA_append {α : Type} (xs ys : List (String × α)) (k : String) :
    lookupA (xs ++ ys) k
      = (match lookupA xs k with
         | some v => some v
         | none => lookupA ys k) := by
  induction xs with
  | nil => simp [lookupA]
  | cons hd tl ih =>
      by_cases h : hd.1 = k
      · simp [lookupA, h]
      · simp [lookupA, h, ih]

theorem extractAgents_no_providers {fs a : List (String × JVal)}
    (h : extractAgents fs = .ok a) : lookupA a "providers" = none := by
  unfold extractAgents at h
  split at h
  · simp only [Except.ok.injEq] at h
    rw [← h]
    rfl
  · split at h
    · simp only [Except.ok.injEq] at h
      rw [← h]
      rfl
    · simp only [Except.ok.injEq] at h
      rw [← h]
      simp [lookupA]
    · simp at h
  · simp at h

theorem extractProvidersGo_sound :
    ∀ (pfs entries : List (String × JVal)),
      extractProvidersGo pfs = .ok entries →
      ∀ pname pv, (pname, pv) ∈ entries →
        containsTailscale pname = false
        ∧ ∃ pvfs, pv = .obj pvfs
            ∧ ∀ kv ∈ pvfs, inheritAllowKeys.contains kv.1 = true := by
  intro pfs
  induction pfs with
  | nil =>
      intro entries h pname pv hmem
      simp only [extractProvidersGo, Except.ok.injEq] at h
      rw [← h] at hmem
      simp at hmem
  | cons hd tl ih =>
      intro entries h pname pv hmem
      obtain ⟨pn, pc⟩ := hd
      by_cases hts : containsTailscale pn
      · simp only [extractProvidersGo, hts, if_true] at h
        exact ih entries h pname pv hmem
      · simp only [extractProvidersGo, hts, if_false] at h
        cases pc with
        | obj pcfs =>
            cases hrec : extractProvidersGo tl with
            | error e => rw [hrec] at h; simp at h
            | ok tail =>
                rw [hrec] at h
                simp at h
                subst h
                rcases List.mem_cons.mp hmem with heq | htail
                · have hpn : pname = pn := congrArg Prod.fst heq
                  have hpv : pv = .obj (sanitizeProvider pcfs) :=
                    congrArg Prod.snd heq
                  refine ⟨hpn ▸ (by simpa using hts), sanitizeProvider pcfs, hpv, ?_⟩
                  intro kv hkv
                  exact (List.mem_filter.mp hkv).2
                · exact ih tail hrec pname pv htail
        | null => simp at h
        | bool b => simp at h
        | num n => simp at h
        | str s => simp at h
        | arr xs => simp at h
        | float f => simp at h

theorem extractProviders_shape {fs p : List (String × JVal)}
    (h : extractProviders fs = .ok p) :
    p = []
    ∨ ∃ pfs entries, lookupA fs "providers" = some (.obj pfs)
        ∧ extractProvidersGo pfs = .ok entries
        ∧ p = [("providers", .obj entries)] := by
  unfold extractProviders at h
  cases hlk : lookupA fs "providers" with
  | none =>
      rw [hlk] at h
      simp only [Except.ok.injEq] at h
      left
      exact h.symm
  | some v =>
      rw [hlk] at h
      cases v with
      | obj pfs =>
          dsimp only at h
          cases hgo : extractProvidersGo pfs with
          | error e => rw [hgo] at h; simp at h
          | ok entries =>
              rw [hgo] at h
              simp only [Except.ok.injEq] at h
              right
              exact ⟨pfs, entries, rfl, hgo, h.symm⟩
      | null => simp at h
      | bool b => simp at h
      | num n => simp at h
      | str s => simp at h
      | arr xs => simp at h
      | float f => simp at h

/-! ## Config port-rewrite lemmas -/

theorem setConfigPort_shape {c c' : JVal} {port : Nat}
    (h : setConfigPort c port = .ok c') :
    ∃ fs gfs, c = .obj fs ∧ lookupA fs "gateway" = some (.obj gfs)
      ∧ c' = .obj (setA fs "gateway" (.obj (setA gfs "port" (.num port)))) := by
  unfold setConfigPort at h
  cases c with
  | obj fs =>
      dsimp only at h
      cases hlk : lookupA fs "gateway" with
      | none => rw [hlk] at h; simp at h
      | some g =>
          rw [hlk] at h
          cases g with
          | obj gfs =>
              simp only [Except.ok.injEq] at h
              exact ⟨fs, gfs, rfl, hlk, h.symm⟩
          | null => simp at h
          | bool b => simp at h
          | num n => simp at h
          | str s => simp at h
          | arr xs => simp at h
          | float f => simp at h
  | null => simp [setConfigPort] at h
  | bool b => simp [setConfigPort] at h
  | num n => simp [setConfigPort] at h
  | str s => simp [setConfigPort] at h
  | arr xs => simp [setConfigPort] at h
  | float f => simp [setConfigPort] at h

theorem setConfigPort_get {c c' : JVal} {port : Nat}
    (h : setConfigPort c port = .ok c') :
    getPath c' ["gateway", "port"] = some (.num port) := by
  obtain ⟨fs, gfs, hc, hlk, hc'⟩ := setConfigPort_shape h
  subst hc'
  simp [getPath, lookupA_setA_self]

/-- Rewriting `gateway.port` changes nothing outside the `gateway` entry
and nothing inside it except `port`. -/
theorem setConfigPort_preserves {c c' : JVal} {port : Nat}
    (h : setConfigPort c port = .ok c') :
    (∀ k ps, k ≠ "gateway" → getPath c' (k :: ps) = getPath c (k :: ps))
    ∧ (∀ k ps, k ≠ "port" →
        getPath c' ("gateway" :: k :: ps) = getPath c ("gateway" :: k :: ps)) := by
  obtain ⟨fs, gfs, hc, hlk, hc'⟩ := setConfigPort_shape h
  subst hc; subst hc'
  constructor
  · intro k ps hk
    simp only [getPath, lookupA_setA_other fs "gateway" k _ hk]
  · intro k ps hk
    simp only [getPath, lookupA_setA_self, hlk,
      lookupA_setA_other gfs "port" k _ hk]

/-! ## Restore lemmas -/

theorem restore_finish_fields (env : Env) (inst : Instance) (s : Sys) :
    (restore_finish env inst s).1 = .ok ()
    ∧ (restore_finish env inst s).2.instances = setA s.instances inst.name inst
    ∧ (restore_finish env inst s).2.configFiles = s.configFiles
    ∧ (restore_finish env inst s).2.stateTrees = s.stateTrees := by
  unfold restore_finish
  by_cases h : env.svcCreateOk
  · rw [if_pos h]
    exact ⟨rfl, rfl, rfl, rfl⟩
  · rw [if_neg h]
    exact ⟨rfl, rfl, rfl, rfl⟩

/-- Successful restore with an archived config: the committed record holds
the port freshly allocated against `s1`, the config on disk is the archived
one with `gateway.port` rewritten to that port, and the state tree is the
merged extraction. -/
theorem restore_go_spec (env : Env) (s1 : Sys) (A : Archive)
    (mfs : List (String × JVal)) (restoreName : String) (c : JVal)
    (hcfg : A.configEntry = some c)
    (hok : (restore_go env s1 A mfs restoreName).1 = .ok ()) :
    ∃ inst c',
      lookupA (restore_go env s1 A mfs restoreName).2.instances restoreName
          = some inst
      ∧ inst.port = next_port s1 env.listening
      ∧ setConfigPort c (next_port s1 env.listening) = .ok c'
      ∧ lookupA (restore_go env s1 A mfs restoreName).2.configFiles restoreName
          = some c'
      ∧ lookupA (restore_go env s1 A mfs restoreName).2.stateTrees restoreName
          = some (restoredTree (lookupA s1.stateTrees restoreName) A.state) := by
  unfold restore_go at hok ⊢
  rw [hcfg] at hok ⊢
  dsimp only at hok ⊢
  cases hsp : setConfigPort c (next_port s1 env.listening) with
  | error e =>
      rw [hsp] at hok
      exact absurd hok (by simp)
  | ok c' =>
      rw [hsp] at hok
      dsimp only at hok ⊢
      refine ⟨{ name := restoreName, port := next_port s1 env.listening, profile := restoreName, created_at := env.now, model := jstrD (lookupA mfs "model") "" }, c', ?_, rfl, rfl, ?_, ?_⟩
      · rw [(restore_finish_fields _ _ _).2.1]
        exact lookupA_setA_self _ _ _
      · rw [(restore_finish_fields _ _ _).2.2.1]
        exact lookupA_setA_self _ _ _
      · rw [(restore_finish_fields _ _ _).2.2.2]
        exact lookupA_setA_self _ _ _

/-! ## Claim-level theorems -/

/-- C1 (counterexample): from the empty registry, create `a` (allocated
port 18789), create `b` (18809), delete `a`, then create `c`: `c` is
allocated 18789 — the very port previously allocated to `a` — so automatic
port allocation does return the same port twice across a sequence of
creates interleaved with a delete.  `next_port` never reads the persisted
`port_counter`. -/
theorem C1_counterexample :
    (lookupA c1s1.instances "a").map Instance.port = some 18789
    ∧ lookupA c1s3.instances "a" = none
    ∧ c1res.1 = .ok ()
    ∧ (lookupA c1res.2.instances "c").map Instance.port = some 18789 :=
  ⟨by decide, by decide, by decide, by decide⟩

/-- C1 (amended): automatic allocation never returns a port held by a
currently registered instance, nor one the liveness probe reports live;
but a deleted instance's port can be handed out again, as the
counterexample shows — the scan restarts at `BASE_PORT` and the registry's
`port_counter` is never consulted. -/
theorem C1_amended_no_live_reuse (sys : Sys) (listening : List Nat) :
    next_port sys listening ∉ usedPorts sys
    ∧ next_port sys listening ∉ listening :=
  next_port_spec sys listening

/-- C9: in every world state reachable from the empty registry by any
sequence of `create` (with automatic or explicit port), `delete`, and
`restore` operations — under any environments and injected failures — the
ports held by the registry entries are pairwise distinct. -/
theorem C9_port_uniqueness (ops : List Op) : distinctPorts (runOps ops) := by
  have hstep : ∀ (rest : List Op) (sys : Sys), distinctPorts sys →
      distinctPorts (rest.foldl applyOp sys) := by
    intro rest
    induction rest with
    | nil => intro sys h; exact h
    | cons op tail ih =>
        intro sys h
        simp only [List.foldl_cons]
        apply ih
        cases op with
        | createOp env fail name p m =>
            exact create_preserves_distinct env fail sys name p m h
        | deleteOp env name f =>
            exact delete_preserves_distinct env sys name f h
        | restoreOp env a n f =>
            exact restore_preserves_distinct env sys a n f h
  exact hstep ops emptySys (by simp [distinctPorts, usedPorts, emptySys])

/-- C10: when the dotted key's walk meets a value that already exists in
the document and is not a mapping, `edit_instance` returns failure and the
world — in particular the config file on disk — is exactly the input
state: the error is raised before the write-back. -/
theorem C10_edit_blocked_no_write (env : Env) (sys : Sys)
    (name key raw : String) (inst : Instance) (cfg : JVal)
    (hreg : lookupA sys.instances name = some inst)
    (hcfg : lookupA sys.configFiles name = some cfg)
    (hblocked : pathBlocked cfg (splitDot key) = true) :
    edit_instance env sys name key raw = (false, sys) := by
  unfold edit_instance
  rw [hreg]
  dsimp only
  rw [hcfg]
  dsimp only
  rw [pathBlocked_setPath_error (splitDot key) cfg hblocked (interpRaw raw)]

/-- C10 (witness): editing `meta.x` of `w`, whose `meta` entry is the
string `m`, fails and leaves the world unchanged. -/
theorem C10_witness : edit_instance env0 sysW "w" "meta.x" "1" = (false, sysW) :=
  C10_edit_blocked_no_write env0 sysW "w" "meta.x" "1" instW cfgW
    (by decide) rfl (by decide)

/-- C8 (counterexample): when the main configuration file exists but is
unparseable, config composition does not succeed with the default layer —
the parse failure propagates out of `create_instance_config`. -/
theorem C8_counterexample :
    create_instance_config (load_main_config (some (.error ()))) "w" 18789 env0
      = .error () := rfl

/-- C8 (amended): an unparseable main config makes composition raise; the
enclosing `create_instance` catches the error, rolls back, and the create
fails with `createFailed` leaving no registry entry and no artifacts — the
failure is fatal to the create rather than degraded to defaults. -/
theorem C8_amended_parse_failure_fatal (env : Env) (fail : FailSpec)
    (sys : Sys) (name : String) (modelArg : Option String)
    (hmain : env.mainConfig = some (.error ()))
    (hvalid : validName name = true)
    (hnotmain : name ≠ MAIN_PROFILE)
    (hfresh : lookupA sys.instances name = none)
    (hmk : fail.mkdirFail = false) :
    (create_instance env fail sys name none modelArg).1 = .error .createFailed
    ∧ lookupA (create_instance env fail sys name none modelArg).2.instances name = none
    ∧ lookupA (create_instance env fail sys name none modelArg).2.configFiles name = none
    ∧ lookupA (create_instance env fail sys name none modelArg).2.stateTrees name = none
    ∧ lookupA (create_instance env fail sys name none modelArg).2.serviceFiles name = none := by
  unfold create_instance
  rw [if_neg (by simp [hvalid]), if_neg hnotmain, if_neg (by simp [hfresh])]
  dsimp only
  unfold create_try
  rw [if_neg (by simp [hmk])]
  have hcomp : create_instance_config (load_main_config env.mainConfig) name
      (next_port sys env.listening) env = .error () := by
    rw [hmain]
    rfl
  rw [hcomp]
  dsimp only
  exact ⟨rfl, hfresh, lookupA_removeA_self _ _, lookupA_removeA_self _ _,
    lookupA_removeA_self _ _⟩

/-- C8 (witness): the fatal composition failure at a concrete world. -/
theorem C8_amended_witness :
    (create_instance envBadMain failNone emptySys "w" none none).1
        = .error .createFailed
    ∧ lookupA (create_instance envBadMain failNone emptySys "w" none none).2.instances "w"
        = none := by
  have h := C8_amended_parse_failure_fatal envBadMain failNone emptySys "w" none
    rfl (by decide) (by decide) rfl rfl
  exact ⟨h.1, h.2.1⟩

/-- C3 (counterexample): `w` is registered and the supervisor reports it
active (running); `delete` without `force`, with the confirmation prompt
answered `y`, succeeds and removes the registry entry — there is no
`InstanceBusy` failure and the operation does mutate: the running state is
never consulted by `delete_instance`. -/
theorem C3_counterexample :
    envActive.statusOf "w" = "active"
    ∧ (delete_instance envActive sysW "w" false).1 = .ok ()
    ∧ lookupA (delete_instance envActive sysW "w" false).2.instances "w" = none :=
  ⟨rfl, by decide, by decide⟩

/-- C3 (amended): without `force` the only guard is the interactive
confirmation: any answer other than `y` (case-insensitively) cancels with
no mutation, and a `y` answer lets the deletion proceed and remove the
entry even while the instance is running — the code defines no
`InstanceBusy` condition. -/
theorem C3_amended_confirmation_gate (env : Env) (sys : Sys) (name : String)
    (inst : Instance)
    (hreg : lookupA sys.instances name = some inst)
    (hmain : name ≠ MAIN_PROFILE) :
    (lowerStr env.confirm ≠ "y" →
      delete_instance env sys name false = (.error .cancelled, sys))
    ∧ (lowerStr env.confirm = "y" →
      (delete_instance env sys name false).1 = .ok ()
      ∧ lookupA (delete_instance env sys name false).2.instances name = none) := by
  constructor
  · intro hc
    unfold delete_instance
    rw [hreg]
    dsimp only
    rw [if_neg hmain, if_pos (by exact ⟨by simp, hc⟩)]
  · intro hc
    unfold delete_instance
    rw [hreg]
    dsimp only
    rw [if_neg hmain, if_neg (fun hh => hh.2 hc)]
    exact ⟨rfl, lookupA_removeA_self _ _⟩

/-- C3 (witness): an `n` answer cancels without mutation; a `y` answer
deletes. -/
theorem C3_amended_witness :
    delete_instance envNo sysW "w" false = (.error .cancelled, sysW)
    ∧ (delete_instance env0 sysW "w" false).1 = .ok () :=
  ⟨(C3_amended_confirmation_gate envNo sysW "w" instW (by decide) (by decide)).1
      (by decide),
   ((C3_amended_confirmation_gate env0 sysW "w" instW (by decide) (by decide)).2
      (by decide)).1⟩

/-- C4 (counterexample): `create` of the already-registered name `w` fails
with `AlreadyExists`, and the registry entry for `w` — together with its
artifacts — is still there afterwards, so a failed create does not always
leave "no registry entry for that name": precondition failures leave the
pre-existing instance in place. -/
theorem C4_counterexample :
    (create_instance env0 failNone sysW "w" none none).1 = .error .alreadyExists
    ∧ lookupA (create_instance env0 failNone sysW "w" none none).2.instances "w"
        = some instW :=
  ⟨by decide, by decide⟩

theorem create_try_amended (env : Env) (fail : FailSpec) (sys : Sys)
    (name : String) (port : Nat) (modelArg : Option String)
    (hfresh : lookupA sys.instances name = none) :
    (((create_try env fail sys name port modelArg).1 = .error .invalidName
      ∨ (create_try env fail sys name port modelArg).1 = .error .reservedName
      ∨ (create_try env fail sys name port modelArg).1 = .error .alreadyExists
      ∨ (create_try env fail sys name port modelArg).1 = .error .portInUse) →
      (create_try env fail sys name port modelArg).2 = sys)
    ∧ ((create_try env fail sys name port modelArg).1 = .error .createFailed →
      lookupA (create_try env fail sys name port modelArg).2.stateTrees name = none
      ∧ lookupA (create_try env fail sys name port modelArg).2.configFiles name = none
      ∧ lookupA (create_try env fail sys name port modelArg).2.serviceFiles name = none
      ∧ lookupA (create_try env fail sys name port modelArg).2.instances name = none) := by
  rcases create_try_cases env fail sys name port modelArg with
    ⟨s', heq, ht, hc, hs, hi⟩ | hok
  · rw [heq]
    constructor
    · intro hpre
      rcases hpre with h | h | h | h <;> simp at h
    · intro _
      exact ⟨ht, hc, hs, by rw [hi]; exact hfresh⟩
  · constructor
    · intro hpre
      rcases hpre with h | h | h | h <;> (rw [hok] at h; simp at h)
    · intro h
      rw [hok] at h
      simp at h

/-- C4 (amended): precondition failures of `create` (invalid name,
reserved name, already registered, explicit port collision) leave the
entire world state unchanged; any failure after directory creation rolls
back, leaving no state tree, no config file, no service descriptor, and no
registry entry for the name. -/
theorem C4_amended_rollback (env : Env) (fail : FailSpec) (sys : Sys)
    (name : String) (portArg : Option Nat) (modelArg : Option String) :
    (((create_instance env fail sys name portArg modelArg).1 = .error .invalidName
      ∨ (create_instance env fail sys name portArg modelArg).1 = .error .reservedName
      ∨ (create_instance env fail sys name portArg modelArg).1 = .error .alreadyExists
      ∨ (create_instance env fail sys name portArg modelArg).1 = .error .portInUse) →
      (create_instance env fail sys name portArg modelArg).2 = sys)
    ∧ ((create_instance env fail sys name portArg modelArg).1 = .error .createFailed →
      lookupA (create_instance env fail sys name portArg modelArg).2.stateTrees name = none
      ∧ lookupA (create_instance env fail sys name portArg modelArg).2.configFiles name = none
      ∧ lookupA (create_instance env fail sys name portArg modelArg).2.serviceFiles name = none
      ∧ lookupA (create_instance env fail sys name portArg modelArg).2.instances name = none) := by
  unfold create_instance
  by_cases h1 : ¬ validName name
  · rw [if_pos h1]
    exact ⟨fun _ => rfl, fun h => by simp at h⟩
  · rw [if_neg h1]
    by_cases h2 : name = MAIN_PROFILE
    · rw [if_pos h2]
      exact ⟨fun _ => rfl, fun h => by simp at h⟩
    · rw [if_neg h2]
      by_cases h3 : (lookupA sys.instances name).isSome
      · rw [if_pos h3]
        exact ⟨fun _ => rfl, fun h => by simp at h⟩
      · rw [if_neg h3]
        have h3' : lookupA sys.instances name = none := by
          cases hlk : lookupA sys.instances name with
          | none => rfl
          | some v => rw [hlk] at h3; simp at h3
        cases portArg with
        | none =>
            dsimp only
            exact create_try_amended env fail sys name _ modelArg h3'
        | some p =>
            dsimp only
            by_cases hp : port_in_use sys p
            · rw [if_pos hp]
              exact ⟨fun _ => rfl, fun h => by simp at h⟩
            · rw [if_neg hp]
              exact create_try_amended env fail sys name p modelArg h3'

/-- C4 (witness): an `AlreadyExists` failure leaves the world unchanged; a
post-directory failure (failing systemd unit) leaves no registry entry. -/
theorem C4_amended_witness :
    (create_instance env0 failNone sysW "w" none none).2 = sysW
    ∧ lookupA (create_instance envNoSvc failNone emptySys "w" none none).2.instances "w"
        = none :=
  ⟨(C4_amended_rollback env0 failNone sysW "w" none none).1
      (Or.inr (Or.inr (Or.inl (by decide)))),
   ((C4_amended_rollback envNoSvc failNone emptySys "w" none none).2
      (by decide)).2.2.2⟩

/-- C5: a successful `edit` splits the key on `.`, walks/creates
intermediate mapping levels, and stores the raw value parsed as JSON when
it parses (so `"5"` becomes the number 5) and as the literal string
otherwise (so `"hello"` stays a string); reading the edited path back
yields exactly that value, and every path that splits from the edited one
reads back unchanged. -/
theorem C5_edit_dot_path (env : Env) (sys : Sys) (name key raw : String)
    (sys' : Sys) (h : edit_instance env sys name key raw = (true, sys')) :
    ∃ cfg cfg',
      lookupA sys.configFiles name = some cfg
      ∧ lookupA sys'.configFiles name = some cfg'
      ∧ setPath cfg (splitDot key) (interpRaw raw) = .ok cfg'
      ∧ getPath cfg' (splitDot key) = some (interpRaw raw)
      ∧ (∀ p, diverges (splitDot key) p = true → getPath cfg' p = getPath cfg p)
      ∧ interpRaw "5" = .num 5 ∧ interpRaw "hello" = .str "hello" := by
  unfold edit_instance at h
  cases hreg : lookupA sys.instances name with
  | none => rw [hreg] at h; simp at h
  | some inst =>
      rw [hreg] at h
      dsimp only at h
      cases hcfg : lookupA sys.configFiles name with
      | none => rw [hcfg] at h; simp at h
      | some cfg =>
          rw [hcfg] at h
          dsimp only at h
          cases hset : setPath cfg (splitDot key) (interpRaw raw) with
          | error e => rw [hset] at h; simp at h
          | ok cfg' =>
              rw [hset] at h
              dsimp only at h
              have hsys : sys' = { sys with configFiles := setA sys.configFiles name cfg' } := by
                have h2 := congrArg Prod.snd h
                exact h2.symm
              refine ⟨cfg, cfg', rfl, ?_, hset, setPath_get_self _ _ _ _ hset,
                fun p hp => setPath_diverges _ p _ _ _ hset hp, rfl, rfl⟩
              rw [hsys]
              exact lookupA_setA_self _ _ _

/-- C5 (witness): editing `a.b.c` of `w` with raw value `5` succeeds;
the conclusions are obtained from the theorem at this concrete input. -/
theorem C5_witness :
    ∃ cfg cfg',
      lookupA sysW.configFiles "w" = some cfg
      ∧ lookupA (edit_instance env0 sysW "w" "a.b.c" "5").2.configFiles "w" = some cfg'
      ∧ setPath cfg (splitDot "a.b.c") (interpRaw "5") = .ok cfg'
      ∧ getPath cfg' (splitDot "a.b.c") = some (interpRaw "5")
      ∧ (∀ p, diverges (splitDot "a.b.c") p = true → getPath cfg' p = getPath cfg p)
      ∧ interpRaw "5" = .num 5 ∧ interpRaw "hello" = .str "hello" :=
  C5_edit_dot_path env0 sysW "w" "a.b.c" "5"
    (edit_instance env0 sysW "w" "a.b.c" "5").2 rfl

/-- C2 (counterexample): a main config whose provider `ppq` holds an API
key: `extract_inheritable` copies the `apiKey` field into the inherited
settings — the allow-list `["baseURL", "apiKey", "models", "baseUrl",
"api"]` explicitly includes it — so the inherited view is not free of API
keys as claimed. -/
theorem C2_counterexample :
    (extract_inheritable mainCfgLeak).map
        (fun r => getPath (.obj r) ["providers", "ppq", "apiKey"])
      = .ok (some (.str "sk-secret")) := rfl

/-- C2 (amended): each inherited provider entry contains only fields from
the connection allow-list `baseURL`/`apiKey`/`models`/`baseUrl`/`api` —
the API key is on the allow-list and is inherited — and no provider whose
name contains "tailscale" (case-insensitively) is inherited at all. -/
theorem C2_amended_sanitized_providers (fs r pfsOut : List (String × JVal))
    (pname : String) (pv : JVal)
    (hex : extract_inheritable fs = .ok r)
    (hprov : lookupA r "providers" = some (.obj pfsOut))
    (hmem : (pname, pv) ∈ pfsOut) :
    containsTailscale pname = false
    ∧ ∃ pvfs, pv = .obj pvfs
        ∧ ∀ kv ∈ pvfs, inheritAllowKeys.contains kv.1 = true := by
  unfold extract_inheritable at hex
  cases ha : extractAgents fs with
  | error e => rw [ha] at hex; simp at hex
  | ok a =>
      rw [ha] at hex
      dsimp only at hex
      cases hp : extractProviders fs with
      | error e => rw [hp] at hex; simp at hex
      | ok p =>
          rw [hp] at hex
          dsimp only at hex
          simp only [Except.ok.injEq] at hex
          rw [← hex, List.append_assoc, lookupA_append,
            extractAgents_no_providers ha, lookupA_append] at hprov
          rcases extractProviders_shape hp with hp0 | ⟨pfs, entries, hlk, hgo, hpe⟩
          · rw [hp0] at hprov
            cases hm : lookupA fs "models" with
            | none => rw [hm] at hprov; simp [lookupA] at hprov
            | some mv => rw [hm] at hprov; simp [lookupA] at hprov
          · rw [hpe] at hprov
            simp [lookupA] at hprov
            rw [← hprov] at hmem
            exact extractProvidersGo_sound pfs entries hgo pname pv hmem

/-- C2 (witness): from a main config with an ordinary provider and a
tailscale provider, the inherited entry for `openai` is tailscale-free and
holds only allow-listed fields. -/
theorem C2_amended_witness :
    containsTailscale "openai" = false
    ∧ ∃ pvfs, JVal.obj [("apiKey", JVal.str "k"), ("baseURL", JVal.str "u")]
          = .obj pvfs
        ∧ ∀ kv ∈ pvfs, inheritAllowKeys.contains kv.1 = true :=
  C2_amended_sanitized_providers mainCfgMixed mainCfgMixedOut
    [("openai", .obj [("apiKey", .str "k"), ("baseURL", .str "u")])]
    "openai" (.obj [("apiKey", .str "k"), ("baseURL", .str "u")])
    rfl rfl (List.mem_cons_self _ _)

/-- C6: a successful restore commits an instance whose port equals
`next_port` evaluated on the registry at allocation time (`s1`: the input
world, or the post-force-delete world) — the allocator's inputs never
include the archived metadata port, which the code reads into a local it
never uses — the committed port is fresh with respect to that registry,
and the config written for the instance has `gateway.port` rewritten to
exactly that port. -/
theorem C6_restore_allocates_fresh_port (env : Env) (sys : Sys) (A : Archive)
    (nameArg : Option String) (force : Bool)
    (mfs : List (String × JVal)) (c : JVal)
    (hmeta : A.metadataEntry = some mfs)
    (hcfg : A.configEntry = some c)
    (hok : (restore_instance env sys (some A) nameArg force).1 = .ok ()) :
    ∃ s1 inst c',
      (s1 = sys
        ∨ s1 = (delete_instance env sys
            (nameArg.getD (jstrD (lookupA mfs "name") "unknown")) true).2)
      ∧ lookupA (restore_instance env sys (some A) nameArg force).2.instances
          (nameArg.getD (jstrD (lookupA mfs "name") "unknown")) = some inst
      ∧ inst.port = next_port s1 env.listening
      ∧ inst.port ∉ usedPorts s1
      ∧ lookupA (restore_instance env sys (some A) nameArg force).2.configFiles
          (nameArg.getD (jstrD (lookupA mfs "name") "unknown")) = some c'
      ∧ getPath c' ["gateway", "port"] = some (.num inst.port) := by
  unfold restore_instance at hok ⊢
  dsimp only at hok ⊢
  rw [hmeta] at hok ⊢
  dsimp only at hok ⊢
  by_cases hex : (lookupA sys.instances
      (nameArg.getD (jstrD (lookupA mfs "name") "unknown"))).isSome ∧ ¬ force
  · rw [if_pos hex] at hok
    simp at hok
  · rw [if_neg hex] at hok ⊢
    by_cases hf : force ∧ (lookupA sys.instances
        (nameArg.getD (jstrD (lookupA mfs "name") "unknown"))).isSome
    · rw [if_pos hf] at hok ⊢
      obtain ⟨inst, c', h1, h2, h3, h4, h5⟩ :=
        restore_go_spec env _ A mfs _ c hcfg hok
      refine ⟨_, inst, c', Or.inr rfl, h1, h2, ?_, h4, ?_⟩
      · rw [h2]
        exact (next_port_spec _ env.listening).1
      · rw [h2]
        exact setConfigPort_get h3
    · rw [if_neg hf] at hok ⊢
      obtain ⟨inst, c', h1, h2, h3, h4, h5⟩ :=
        restore_go_spec env sys A mfs _ c hcfg hok
      refine ⟨sys, inst, c', Or.inl rfl, h1, h2, ?_, h4, ?_⟩
      · rw [h2]
        exact (next_port_spec sys env.listening).1
      · rw [h2]
        exact setConfigPort_get h3

/-- C6 (witness): restoring `archR` (whose metadata remembers port 5) into
the empty world allocates via `next_port` and rewrites the config port. -/
theorem C6_witness :
    ∃ s1 inst c',
      (s1 = emptySys ∨ s1 = (delete_instance env0 emptySys "r" true).2)
      ∧ lookupA (restore_instance env0 emptySys (some archR) none false).2.instances
          "r" = some inst
      ∧ inst.port = next_port s1 env0.listening
      ∧ inst.port ∉ usedPorts s1
      ∧ lookupA (restore_instance env0 emptySys (some archR) none false).2.configFiles
          "r" = some c'
      ∧ getPath c' ["gateway", "port"] = some (.num inst.port) :=
  C6_restore_allocates_fresh_port env0 emptySys archR none false
    [("name", .str "r"), ("port", .num 5)]
    (.obj [("gateway", .obj [("port", .num 5), ("bind", .str "loopback")])])
    rfl rfl (by decide)

/-- C7: backing up instance `n1` and restoring the archive to a fresh name
`n2` yields a state tree equal to `n1`'s tree at backup time and a config
document that differs from `n1`'s only below the `gateway` entry, and
inside `gateway` only at `port`: every path not starting at `gateway`, and
every `gateway`-path not hitting `port`, reads back unchanged (the
composed schema has no name field, and the workspace field is among the
unchanged ones, which the claim's "only in name, port, and workspace"
tolerates). -/
theorem C7_backup_restore_roundtrip (env env2 : Env) (sys : Sys)
    (n1 n2 : String) (A : Archive) (inst : Instance) (T : StateTree) (c : JVal)
    (hreg : lookupA sys.instances n1 = some inst)
    (htree : lookupA sys.stateTrees n1 = some T)
    (hcfg : lookupA sys.configFiles n1 = some c)
    (hA : backup_instance env sys n1 = some A)
    (hfresh : lookupA sys.instances n2 = none)
    (hfreshT : lookupA sys.stateTrees n2 = none)
    (hok : (restore_instance env2 sys (some A) (some n2) false).1 = .ok ()) :
    lookupA (restore_instance env2 sys (some A) (some n2) false).2.stateTrees n2
        = some T
    ∧ ∃ c',
        lookupA (restore_instance env2 sys (some A) (some n2) false).2.configFiles n2
            = some c'
        ∧ (∀ k ps, k ≠ "gateway" → getPath c' (k :: ps) = getPath c (k :: ps))
        ∧ (∀ k ps, k ≠ "port" →
            getPath c' ("gateway" :: k :: ps) = getPath c ("gateway" :: k :: ps))
        ∧ ∃ p : Nat, getPath c' ["gateway", "port"] = some (.num p) := by
  unfold backup_instance at hA
  rw [hreg] at hA
  dsimp only at hA
  simp only [Option.some.injEq] at hA
  have hAcfg : A.configEntry = some c := by
    rw [← hA]
    exact hcfg
  have hAstate : A.state = T := by
    rw [← hA]
    dsimp only
    rw [htree]
    rfl
  have hAmeta : A.metadataEntry
      = some [("name", .str inst.name), ("port", .num inst.port),
              ("profile", .str inst.profile), ("model", .str inst.model),
              ("created_at", .str inst.created_at),
              ("backup_date", .str env.now)] := by
    rw [← hA]
  unfold restore_instance at hok ⊢
  dsimp only at hok ⊢
  rw [hAmeta] at hok ⊢
  dsimp only at hok ⊢
  simp only [Option.getD_some] at hok ⊢
  rw [if_neg (by simp [hfresh]), if_neg (by simp)] at hok ⊢
  obtain ⟨inst', c', h1, h2, h3, h4, h5⟩ :=
    restore_go_spec env2 sys A _ n2 c hAcfg hok
  refine ⟨?_, c', h4, (setConfigPort_preserves h3).1,
    (setConfigPort_preserves h3).2, next_port sys env2.listening,
    setConfigPort_get h3⟩
  rw [h5, hfreshT, hAstate]
  rfl

/-- C7 (witness): round trip of `w` into the fresh name `w2`. -/
theorem C7_witness :
    lookupA (restore_instance env0 sysW (some archW) (some "w2") false).2.stateTrees "w2"
        = some treeW
    ∧ ∃ c',
        lookupA (restore_instance env0 sysW (some archW) (some "w2") false).2.configFiles "w2"
            = some c'
        ∧ (∀ k ps, k ≠ "gateway" → getPath c' (k :: ps) = getPath cfgW (k :: ps))
        ∧ (∀ k ps, k ≠ "port" →
            getPath c' ("gateway" :: k :: ps) = getPath cfgW ("gateway" :: k :: ps))
        ∧ ∃ p : Nat, getPath c' ["gateway", "port"] = some (.num p) :=
  C7_backup_restore_roundtrip env0 env0 sysW "w" "w2" archW instW treeW cfgW
    (by decide) rfl rfl rfl (by decide) (by decide) (by decide)

end OCM
